import Mathlib

/-!
Shallow embedding of the ollama-openrouter-proxy route handlers
(`server.go`, `setupRoutes` and `loadModelFilter`).

The backend provider (GetFullModelName / Chat / ChatStream / GetModels /
GetModelDetails) is external to the handler code and is modelled as an
abstract record of functions; HTTP output is modelled as explicit result
values.  A streaming response body is a list of lines, each line standing
for one newline-terminated JSON object exactly as `fmt.Fprintf(w, "%s\n", ...)`
emits it.  An out-of-bounds slice index (a Go panic) is modelled as an
aborted loop with a `panicked` exit marker; `defer stream.Close()` runs on
every exit of the streaming section, panics included, which the embedding
records in the `closed` field of the streaming outcome.
-/

/-- One chat message, role and content, passed through to the backend. -/
structure ChatMessage where
  role : String
  content : String
deriving DecidableEq

/-- Parsed body of POST /api/chat: model alias, messages, optional stream flag.
`stream = none` models an absent field (Go `*bool` nil). -/
structure ChatRequest where
  model : String
  messages : List ChatMessage
  stream : Option Bool
deriving DecidableEq

/-- Token usage reported by the backend (openai.Usage). -/
structure Usage where
  promptTokens : Nat
  completionTokens : Nat
  totalTokens : Nat
deriving DecidableEq

/-- One choice of a non-streaming backend completion: message content and
finish reason (empty string models an absent finish reason). -/
structure RespChoice where
  content : String
  finishReason : String
deriving DecidableEq

/-- A non-streaming backend completion (openai.ChatCompletionResponse). -/
structure ChatResponse where
  choices : List RespChoice
  usage : Usage
deriving DecidableEq

/-- One choice of a streamed delta: Delta.Content and FinishReason
(empty string models an absent finish reason). -/
structure StreamChoice where
  content : String
  finishReason : String
deriving DecidableEq

/-- One streamed backend delta (openai.ChatCompletionStreamResponse):
a list of choices, possibly empty. -/
structure StreamDelta where
  choices : List StreamChoice
deriving DecidableEq

/-- How the backend stream terminates after its deltas: end-of-stream
(io.EOF) or an error. -/
inductive StreamEnd where
  | eof
  | err (msg : String)
deriving DecidableEq

/-- A backend stream: the finite sequence of deltas Recv yields, then the
terminating signal. -/
structure BackendStream where
  deltas : List StreamDelta
  terminal : StreamEnd
deriving DecidableEq

/-- The backend provider operations the chat route calls, as abstract
functions (the provider itself is outside the handler code). -/
structure ChatBackend where
  fullName : String → Except String String
  chat : List ChatMessage → String → Except String ChatResponse
  chatStream : List ChatMessage → String → Except String BackendStream

/-- A backend call issued by the chat handler, recorded in order. -/
inductive BCall where
  | fullName (shortName : String)
  | chat (model : String)
  | chatStream (model : String)
deriving DecidableEq

/-- The single JSON object the non-streaming branch returns
(the ollamaResponse map in server.go). -/
structure OllamaChatResponse where
  model : String
  role : String
  content : String
  done : Bool
  finish_reason : String
  total_duration : Nat
  load_duration : Nat
  prompt_eval_count : Nat
  eval_count : Nat
  eval_duration : Nat
deriving DecidableEq

/-- One line of the streaming response body.  `chunk` is an intermediate
frame with done:false, `final` is the terminal frame with done:true (whose
numeric fields are all zero in the code), `errLine` is the best-effort
error object written on a mid-stream backend error. -/
inductive StreamLine where
  | chunk (model role content : String)
  | final (model role content finish_reason : String)
  | errLine (msg : String)
deriving DecidableEq

/-- The done flag a line carries: chunks carry done:false, the final frame
carries done:true, the error line has no done field. -/
def StreamLine.doneFlag : StreamLine → Option Bool
  | .chunk _ _ _ => some false
  | .final _ _ _ _ => some true
  | .errLine _ => none

/-- The model field a line carries, if any. -/
def StreamLine.modelField : StreamLine → Option String
  | .chunk m _ _ => some m
  | .final m _ _ _ => some m
  | .errLine _ => none

/-- The message role a line carries, if any. -/
def StreamLine.roleField : StreamLine → Option String
  | .chunk _ r _ => some r
  | .final _ r _ _ => some r
  | .errLine _ => none

/-- How the streaming section exits: normally (EOF then final frame),
through the mid-stream error branch, or by an out-of-bounds panic. -/
inductive StreamExit where
  | normal
  | errored
  | panicked
deriving DecidableEq

/-- Result of the POST /api/chat handler. -/
inductive ChatOutcome where
  | badRequest
  | notFound (msg : String)
  | serverError (msg : String)
  | okJson (r : OllamaChatResponse)
  | okStream (lines : List StreamLine) (exit : StreamExit) (closed : Bool)
deriving DecidableEq

/-- One loop iteration of the streaming branch, for one received delta:
save the finish reason when the first choice carries one, then build the
done:false frame from `response.Choices[0].Delta.Content`.  The index is
unguarded in the code, so an empty choices list is a panic, modelled as
`none`. -/
def recvStep (fm lastFR : String) (d : StreamDelta) :
    Option (StreamLine × String) :=
  match d.choices.head? with
  | none => none
  | some c =>
      let lastFR' := if c.finishReason ≠ "" then c.finishReason else lastFR
      some (StreamLine.chunk fm "assistant" c.content, lastFR')

/-- The streaming receive loop over the deltas the backend yields before
its terminal signal.  Returns the emitted chunk lines, the last saved
finish reason, and whether the loop aborted by panic. -/
def streamLoop (fm : String) :
    List StreamDelta → String → List StreamLine × String × Bool
  | [], lastFR => ([], lastFR, false)
  | d :: rest, lastFR =>
      match recvStep fm lastFR d with
      | none => ([], lastFR, true)
      | some (line, lastFR') =>
          let r := streamLoop fm rest lastFR'
          (line :: r.1, r.2.1, r.2.2)

/-- The streaming section body once the backend stream is open: run the
receive loop, then either the mid-stream error branch (one error line, no
final frame) or the finalizing branch (one done:true frame with finish
reason defaulted to "stop").  A panic aborts before the terminal signal
is acted on. -/
def streamBody (fm : String) (s : BackendStream) :
    List StreamLine × StreamExit :=
  let r := streamLoop fm s.deltas ""
  if r.2.2 then (r.1, .panicked)
  else
    match s.terminal with
    | .err msg => (r.1 ++ [StreamLine.errLine ("Stream error: " ++ msg)], .errored)
    | .eof =>
        let fr := if r.2.1 = "" then "stop" else r.2.1
        (r.1 ++ [StreamLine.final fm "assistant" "" fr], .normal)

/-- The non-streaming branch of POST /api/chat. -/
def handleChatNonStream (b : ChatBackend) (req : ChatRequest) :
    ChatOutcome × List BCall :=
  match b.fullName req.model with
  | .error e => (.notFound e, [BCall.fullName req.model])
  | .ok fm =>
      match b.chat req.messages fm with
      | .error e => (.serverError e, [BCall.fullName req.model, BCall.chat fm])
      | .ok resp =>
          match resp.choices.head? with
          | none =>
              (.serverError "No response from model",
               [BCall.fullName req.model, BCall.chat fm])
          | some c0 =>
              let content := if c0.content ≠ "" then c0.content else ""
              let finishReason :=
                if c0.finishReason ≠ "" then c0.finishReason else "stop"
              (.okJson
                { model := fm
                  role := "assistant"
                  content := content
                  done := true
                  finish_reason := finishReason
                  total_duration := resp.usage.totalTokens * 10
                  load_duration := 0
                  prompt_eval_count := resp.usage.promptTokens
                  eval_count := resp.usage.completionTokens
                  eval_duration := resp.usage.completionTokens * 10 },
               [BCall.fullName req.model, BCall.chat fm])

/-- The streaming branch of POST /api/chat.  `defer stream.Close()` is
registered right after ChatStream succeeds, so the stream is closed on
every exit of the section, which the embedding records as the `true`
closed field. -/
def handleChatStreaming (b : ChatBackend) (req : ChatRequest) :
    ChatOutcome × List BCall :=
  match b.fullName req.model with
  | .error e => (.notFound e, [BCall.fullName req.model])
  | .ok fm =>
      match b.chatStream req.messages fm with
      | .error e =>
          (.serverError e, [BCall.fullName req.model, BCall.chatStream fm])
      | .ok s =>
          let r := streamBody fm s
          (.okStream r.1 r.2 true,
           [BCall.fullName req.model, BCall.chatStream fm])

/-- POST /api/chat: a `none` body models a request whose JSON binding
fails (400, no backend call); otherwise streaming defaults to true when
the stream field is absent, and the handler dispatches on it. -/
def handleChat (b : ChatBackend) (body : Option ChatRequest) :
    ChatOutcome × List BCall :=
  match body with
  | none => (.badRequest, [])
  | some req =>
      let streamRequested := req.stream.getD true
      if streamRequested = false then handleChatNonStream b req
      else handleChatStreaming b req

/-- One backend-advertised model (the fields GET /api/tags reads). -/
structure ModelInfo where
  name : String
  model : String
  modifiedAt : String
  details : String
deriving DecidableEq

/-- One decorated entry of the tags listing: the model's fields plus the
fixed placeholder size and digest. -/
structure ListingEntry where
  name : String
  model : String
  modified_at : String
  size : Nat
  digest : String
  details : String
deriving DecidableEq

/-- The decoration GET /api/tags applies to a retained model. -/
def decorate (m : ModelInfo) : ListingEntry :=
  { name := m.name
    model := m.model
    modified_at := m.modifiedAt
    size := 270898672
    digest := "9077fe9d2ae1a4a41a868836b56b8163731a8fe16621397028c2c76f838c6907"
    details := m.details }

/-- The retention test of the tags loop: when the filter is non-empty a
model is kept iff its bare identifier is in the filter; an empty filter
keeps everything. -/
def keepModel (filter : Finset String) (m : ModelInfo) : Bool :=
  if 0 < filter.card then decide (m.model ∈ filter) else true

/-- The models GET /api/tags retains, in backend order. -/
def tagsModels (filter : Finset String) (models : List ModelInfo) :
    List ModelInfo :=
  models.filter (keepModel filter)

/-- The decorated listing GET /api/tags returns. -/
def tagsListing (filter : Finset String) (models : List ModelInfo) :
    List ListingEntry :=
  (tagsModels filter models).map decorate

/-- Result of the GET /api/tags handler. -/
inductive TagsOutcome where
  | serverError (msg : String)
  | ok (models : List ListingEntry)
deriving DecidableEq

/-- GET /api/tags: surface a backend catalog error as 500, otherwise
return the filtered, decorated listing. -/
def handleTags (getModels : Except String (List ModelInfo))
    (filter : Finset String) : TagsOutcome :=
  match getModels with
  | .error e => .serverError e
  | .ok ms => .ok (tagsListing filter ms)

/-- Result of the POST /api/show handler. -/
inductive ShowOutcome where
  | badRequest (msg : String)
  | serverError (msg : String)
  | ok (details : String)
deriving DecidableEq

/-- A backend call issued by the show handler. -/
inductive ShowCall where
  | getModelDetails (name : String)
deriving DecidableEq

/-- Reading the name entry from the bound map, where a missing key yields
the empty string, as a Go map access does. -/
def lookupName (req : List (String × String)) : String :=
  match req.lookup "name" with
  | some v => v
  | none => ""

/-- POST /api/show: a `none` body models a request whose JSON binding
fails; an empty name is rejected before any backend call. -/
def handleShow (getDetails : String → Except String String)
    (body : Option (List (String × String))) : ShowOutcome × List ShowCall :=
  match body with
  | none => (.badRequest "Invalid JSON payload", [])
  | some req =>
      let modelName := lookupName req
      if modelName = "" then (.badRequest "Model name is required", [])
      else
        match getDetails modelName with
        | .error e => (.serverError e, [ShowCall.getModelDetails modelName])
        | .ok d => (.ok d, [ShowCall.getModelDetails modelName])

/-- strings.TrimSpace: drop leading and trailing whitespace characters
from a line. -/
def trimSpace (s : String) : String :=
  ⟨((s.data.dropWhile Char.isWhitespace).reverse.dropWhile
      Char.isWhitespace).reverse⟩

/-- Whether a line begins with the hash character. -/
def startsWithHash (s : String) : Bool :=
  match s.data with
  | c :: _ => c = '#'
  | [] => false

/-- loadModelFilter over the scanned lines of the filter file: trim each
line, discard empty lines, insert the rest into a set (duplicates
collapse). -/
def loadModelFilter (lines : List String) : Finset String :=
  (((lines.map trimSpace).filter (fun l => l ≠ "")).toFinset)

/-- Modelled from the spec: the filter load as the spec describes it, with
hash-prefixed lines additionally ignored as comments, for comparison with
`loadModelFilter` above. -/
def loadModelFilterSpec (lines : List String) : Finset String :=
  (((lines.map trimSpace).filter
      (fun l => !(l == "") && !(startsWithHash l))).toFinset)

/-- The content of a delta's first choice, the fragment the streaming loop
forwards (defaulting to the empty string when there is no choice, a case
in which the loop in fact panics). -/
def headContent (d : StreamDelta) : String :=
  ((d.choices.head?).map StreamChoice.content).getD ""

/-- The finish-reason update one delta applies to the saved value. -/
def updateFR (fr : String) (d : StreamDelta) : String :=
  match d.choices.head? with
  | some c => if c.finishReason ≠ "" then c.finishReason else fr
  | none => fr

/-- The finish reason saved after all deltas, last-write-wins. -/
def lastFinishOf (ds : List StreamDelta) : String :=
  ds.foldl updateFR ""

/-- The finish reason of the final frame: the saved one, or "stop". -/
def finalFinishOf (ds : List StreamDelta) : String :=
  if lastFinishOf ds = "" then "stop" else lastFinishOf ds

/-- The content fragments of the done:false frames of a body, in order. -/
def chunkContents (ls : List StreamLine) : List String :=
  ls.filterMap fun l =>
    match l with
    | .chunk _ _ c => some c
    | _ => none

/-- How many lines of a body carry done:true. -/
def doneTrueCount (ls : List StreamLine) : Nat :=
  (ls.filter (fun l => l.doneFlag = some true)).length

/-- How many lines of a body are error lines. -/
def errLineCount (ls : List StreamLine) : Nat :=
  (ls.filter (fun l =>
    match l with
    | .errLine _ => true
    | _ => false)).length

/-- How many done:true frames a chat outcome puts on the wire: the single
JSON object of the non-streaming branch counts when its done field is
true, a streaming body counts its done:true lines, error statuses carry
none. -/
def outcomeDoneTrue : ChatOutcome → Nat
  | .okJson r => if r.done then 1 else 0
  | .okStream ls _ _ => doneTrueCount ls
  | _ => 0

/-- The body of a well-formed streaming interaction that reaches
end-of-stream: one chunk per delta in order, then the final frame. -/
def wfStreamLines (fm : String) (ds : List StreamDelta) : List StreamLine :=
  ds.map (fun d => StreamLine.chunk fm "assistant" (headContent d)) ++
    [StreamLine.final fm "assistant" "" (finalFinishOf ds)]

theorem streamLoop_eq_of_wf (fm : String) (ds : List StreamDelta)
    (fr0 : String) (h : ∀ d ∈ ds, d.choices ≠ []) :
    streamLoop fm ds fr0 =
      (ds.map (fun d => StreamLine.chunk fm "assistant" (headContent d)),
       ds.foldl updateFR fr0, false) := by
  induction ds generalizing fr0 with
  | nil => rfl
  | cons d rest ih =>
      have hd : d.choices ≠ [] := h d (by simp)
      obtain ⟨c, cs, hc⟩ : ∃ c cs, d.choices = c :: cs := by
        cases hcc : d.choices with
        | nil => exact absurd hcc hd
        | cons c cs => exact ⟨c, cs, rfl⟩
      have hrest : ∀ x ∈ rest, x.choices ≠ [] := fun x hx => h x (by simp [hx])
      simp [streamLoop, recvStep, hc, headContent, updateFR, ih _ hrest]

theorem streamLoop_lines (fm : String) (ds : List StreamDelta)
    (fr0 : String) :
    ∀ l ∈ (streamLoop fm ds fr0).1,
      ∃ c, l = StreamLine.chunk fm "assistant" c := by
  induction ds generalizing fr0 with
  | nil => simp [streamLoop]
  | cons d rest ih =>
      intro l hl
      rcases hrs : recvStep fm fr0 d with _ | ⟨line, fr'⟩
      · simp [streamLoop, hrs] at hl
      · have hline : ∃ c, line = StreamLine.chunk fm "assistant" c := by
          unfold recvStep at hrs
          cases hcc : d.choices.head? with
          | none => simp [hcc] at hrs
          | some c =>
              simp [hcc] at hrs
              exact ⟨c.content, hrs.1.symm⟩
        simp only [streamLoop, hrs, List.mem_cons] at hl
        rcases hl with hl | hl
        · exact hl ▸ hline
        · exact ih fr' l hl

theorem streamBody_eof (fm : String) (s : BackendStream)
    (hwf : ∀ d ∈ s.deltas, d.choices ≠ []) (hterm : s.terminal = .eof) :
    streamBody fm s = (wfStreamLines fm s.deltas, .normal) := by
  simp [streamBody, streamLoop_eq_of_wf fm s.deltas "" hwf, hterm,
    wfStreamLines, finalFinishOf, lastFinishOf]

theorem streamBody_err (fm : String) (s : BackendStream) (msg : String)
    (hwf : ∀ d ∈ s.deltas, d.choices ≠ []) (hterm : s.terminal = .err msg) :
    streamBody fm s =
      (s.deltas.map (fun d => StreamLine.chunk fm "assistant" (headContent d)) ++
        [StreamLine.errLine ("Stream error: " ++ msg)], .errored) := by
  simp [streamBody, streamLoop_eq_of_wf fm s.deltas "" hwf, hterm]

theorem doneTrueCount_append (a b : List StreamLine) :
    doneTrueCount (a ++ b) = doneTrueCount a + doneTrueCount b := by
  simp [doneTrueCount, List.filter_append]

theorem doneTrueCount_eq_zero (ls : List StreamLine)
    (h : ∀ l ∈ ls, l.doneFlag ≠ some true) : doneTrueCount ls = 0 := by
  have : ls.filter (fun l => l.doneFlag = some true) = [] := by
    rw [List.filter_eq_nil_iff]
    intro l hl
    simpa using h l hl
  simp [doneTrueCount, this]

theorem doneTrueCount_chunks (fm : String) (ds : List StreamDelta) :
    doneTrueCount
      (ds.map (fun d => StreamLine.chunk fm "assistant" (headContent d))) = 0 := by
  apply doneTrueCount_eq_zero
  intro l hl
  obtain ⟨d, _, rfl⟩ := List.mem_map.mp hl
  simp [StreamLine.doneFlag]

theorem chunkContents_wf (fm : String) (ds : List StreamDelta) :
    chunkContents (wfStreamLines fm ds) = ds.map headContent := by
  induction ds with
  | nil => rfl
  | cons d rest ih =>
      simpa [chunkContents, wfStreamLines] using ih

theorem doneTrueCount_wf (fm : String) (ds : List StreamDelta) :
    doneTrueCount (wfStreamLines fm ds) = 1 := by
  simp [wfStreamLines, doneTrueCount_append, doneTrueCount_chunks,
    doneTrueCount, StreamLine.doneFlag]

theorem keepModel_eq_true (F : Finset String) (m : ModelInfo) :
    keepModel F m = true ↔ (F = ∅ ∨ m.model ∈ F) := by
  unfold keepModel
  rcases eq_or_ne F ∅ with hF | hF
  · simp [hF]
  · have hpos : 0 < F.card :=
      Finset.card_pos.mpr (Finset.nonempty_iff_ne_empty.mpr hF)
    simp [hpos, hF]

/-- C3: for every filter set F and backend catalog C, the tags route
returns the decoration of a retained sublist of C in backend order, and a
catalog entry is retained iff F is empty or its bare model identifier is
in F. -/
theorem catalog_listing_filter (F : Finset String) (C : List ModelInfo) :
    handleTags (.ok C) F = .ok ((tagsModels F C).map decorate) ∧
    (tagsModels F C).Sublist C ∧
    ∀ m : ModelInfo, m ∈ tagsModels F C ↔ m ∈ C ∧ (F = ∅ ∨ m.model ∈ F) := by
  refine ⟨rfl, List.filter_sublist _, fun m => ?_⟩
  rw [tagsModels, List.mem_filter, keepModel_eq_true]

/-- C7 counterexample: a line starting with a hash is not ignored by
loadModelFilter; it becomes a member of the filter set, unlike in the
spec-modelled variant that does ignore comments. -/
theorem loadModelFilter_hash_counterexample :
    "#gpt-4o" ∈ loadModelFilter ["#gpt-4o", "real-model"] ∧
    startsWithHash "#gpt-4o" = true ∧
    loadModelFilterSpec ["#gpt-4o", "real-model"] = {"real-model"} := by
  refine ⟨?_, rfl, ?_⟩ <;> decide

/-- C7 (amended): loading the filter file yields exactly the set of
whitespace-trimmed non-empty lines, duplicates collapsing into one set
member; hash-prefixed lines are not treated as comments and are retained
like any other non-empty line. -/
theorem loadModelFilter_members (lines : List String) (x : String) :
    x ∈ loadModelFilter lines ↔ x ≠ "" ∧ ∃ l ∈ lines, trimSpace l = x := by
  simp only [loadModelFilter, List.mem_toFinset, List.mem_filter,
    List.mem_map, decide_eq_true_eq]
  constructor
  · rintro ⟨⟨l, hl, rfl⟩, hne⟩
    exact ⟨hne, l, hl, rfl⟩
  · rintro ⟨hne, l, hl, rfl⟩
    exact ⟨⟨l, hl, rfl⟩, hne⟩

/-- A backend whose alias resolution always fails. -/
def bNoModel : ChatBackend :=
  { fullName := fun _ => .error "model not found"
    chat := fun _ _ => .ok ⟨[], ⟨0, 0, 0⟩⟩
    chatStream := fun _ _ => .ok ⟨[], .eof⟩ }

/-- A backend that resolves aliases but whose chat calls fail. -/
def bCallErr : ChatBackend :=
  { fullName := fun _ => .ok "vendor/m"
    chat := fun _ _ => .error "boom"
    chatStream := fun _ _ => .error "boom" }

/-- A backend whose non-streaming chat call returns one choice. -/
def bChatOk : ChatBackend :=
  { fullName := fun _ => .ok "vendor/m"
    chat := fun _ _ => .ok ⟨[⟨"hello", "stop"⟩], ⟨3, 4, 7⟩⟩
    chatStream := fun _ _ => .error "unused" }

/-- A backend whose non-streaming chat call returns zero choices. -/
def bChatEmpty : ChatBackend :=
  { fullName := fun _ => .ok "vendor/m"
    chat := fun _ _ => .ok ⟨[], ⟨0, 0, 0⟩⟩
    chatStream := fun _ _ => .error "unused" }

/-- A backend streaming two content deltas then end-of-stream. -/
def bStreamOk : ChatBackend :=
  { fullName := fun _ => .ok "vendor/m"
    chat := fun _ _ => .error "unused"
    chatStream := fun _ _ =>
      .ok ⟨[⟨[⟨"He", ""⟩]⟩, ⟨[⟨"llo", "stop"⟩]⟩], .eof⟩ }

/-- A backend whose stream fails after one delta. -/
def bStreamErr : ChatBackend :=
  { fullName := fun _ => .ok "vendor/m"
    chat := fun _ _ => .error "unused"
    chatStream := fun _ _ => .ok ⟨[⟨[⟨"He", ""⟩]⟩], .err "boom"⟩ }

/-- A backend whose stream yields a delta with an empty choices list. -/
def bStreamEmptyDelta : ChatBackend :=
  { fullName := fun _ => .ok "vendor/m"
    chat := fun _ _ => .error "unused"
    chatStream := fun _ _ => .ok ⟨[⟨[]⟩], .eof⟩ }

/-- A chat request with stream:false. -/
def reqNoStream : ChatRequest := ⟨"m", [⟨"user", "hi"⟩], some false⟩

/-- A chat request with the stream field absent. -/
def reqStreamAbsent : ChatRequest := ⟨"m", [⟨"user", "hi"⟩], none⟩

theorem errLineCount_append (a b : List StreamLine) :
    errLineCount (a ++ b) = errLineCount a + errLineCount b := by
  simp [errLineCount, List.filter_append]

theorem errLineCount_chunks (fm : String) (ds : List StreamDelta) :
    errLineCount
      (ds.map (fun d => StreamLine.chunk fm "assistant" (headContent d))) = 0 := by
  have : (ds.map (fun d => StreamLine.chunk fm "assistant" (headContent d))).filter
      (fun l => match l with | StreamLine.errLine _ => true | _ => false) = [] := by
    rw [List.filter_eq_nil_iff]
    intro l hl
    obtain ⟨d, _, rfl⟩ := List.mem_map.mp hl
    simp
  simp [errLineCount, this]

/-- C5: when the backend stream fails after streaming has begun, the
handler writes the already-relayed chunks, then exactly one error line,
terminates without any done:true frame, and the stream handle is closed
on this exit path (the closed field of the outcome, from the deferred
Close registered when the stream was opened). -/
theorem chat_stream_midstream_error (b : ChatBackend) (req : ChatRequest)
    (fm msg : String) (s : BackendStream)
    (hs : req.stream.getD true = true)
    (hf : b.fullName req.model = .ok fm)
    (hc : b.chatStream req.messages fm = .ok s)
    (hterm : s.terminal = .err msg)
    (hwf : ∀ d ∈ s.deltas, d.choices ≠ []) :
    (handleChat b (some req)).1 =
      .okStream
        (s.deltas.map (fun d => StreamLine.chunk fm "assistant" (headContent d)) ++
          [StreamLine.errLine ("Stream error: " ++ msg)]) .errored true ∧
    errLineCount
      (s.deltas.map (fun d => StreamLine.chunk fm "assistant" (headContent d)) ++
        [StreamLine.errLine ("Stream error: " ++ msg)]) = 1 ∧
    doneTrueCount
      (s.deltas.map (fun d => StreamLine.chunk fm "assistant" (headContent d)) ++
        [StreamLine.errLine ("Stream error: " ++ msg)]) = 0 := by
  refine ⟨?_, ?_, ?_⟩
  · simp [handleChat, hs, handleChatStreaming, hf, hc,
      streamBody_err fm s msg hwf hterm]
  · simp [errLineCount_append, errLineCount_chunks, errLineCount]
  · rw [doneTrueCount_append, doneTrueCount_chunks]
    simp [doneTrueCount, StreamLine.doneFlag]

theorem chat_stream_midstream_error_witness :
    (handleChat bStreamErr (some reqStreamAbsent)).1 =
      .okStream
        [StreamLine.chunk "vendor/m" "assistant" "He",
         StreamLine.errLine "Stream error: boom"] .errored true ∧
    doneTrueCount
      [StreamLine.chunk "vendor/m" "assistant" "He",
       StreamLine.errLine "Stream error: boom"] = 0 := by
  have h := chat_stream_midstream_error bStreamErr reqStreamAbsent
    "vendor/m" "boom" ⟨[⟨[⟨"He", ""⟩]⟩], .err "boom"⟩ rfl rfl rfl rfl
    (by decide)
  exact ⟨h.1, h.2.2⟩

/-- C8: a chat or details request whose JSON binding fails is answered
with 400 and issues no backend call, and a details request whose bound
body lacks a non-empty name field is answered with 400 and issues no
backend call. -/
theorem bad_body_400_no_backend_call :
    (∀ b : ChatBackend, handleChat b none = (.badRequest, [])) ∧
    (∀ g : String → Except String String,
        handleShow g none = (.badRequest "Invalid JSON payload", [])) ∧
    (∀ (g : String → Except String String) (req : List (String × String)),
        lookupName req = "" →
        handleShow g (some req) = (.badRequest "Model name is required", [])) := by
  refine ⟨fun b => rfl, fun g => rfl, fun g req h => ?_⟩
  simp [handleShow, h]

theorem bad_body_400_no_backend_call_witness :
    lookupName [("model", "m")] = "" ∧
    handleShow (fun n => .ok n) (some [("model", "m")]) =
      (.badRequest "Model name is required", []) :=
  ⟨rfl, bad_body_400_no_backend_call.2.2 (fun n => .ok n) [("model", "m")] rfl⟩

/-- C2: with stream absent or true and a backend stream that ends in
end-of-stream, the handler emits exactly one done:false frame per
received delta, in arrival order, each carrying that delta's content
fragment; concatenating the done:false fragments in order gives the full
streamed content, and the last line is the single done:true frame. -/
theorem chat_stream_frames (b : ChatBackend) (req : ChatRequest)
    (fm : String) (s : BackendStream)
    (hs : req.stream = none ∨ req.stream = some true)
    (hf : b.fullName req.model = .ok fm)
    (hc : b.chatStream req.messages fm = .ok s)
    (hterm : s.terminal = .eof)
    (hwf : ∀ d ∈ s.deltas, d.choices ≠ []) :
    (handleChat b (some req)).1 =
      .okStream (wfStreamLines fm s.deltas) .normal true ∧
    wfStreamLines fm s.deltas =
      s.deltas.map (fun d => StreamLine.chunk fm "assistant" (headContent d)) ++
        [StreamLine.final fm "assistant" "" (finalFinishOf s.deltas)] ∧
    chunkContents (wfStreamLines fm s.deltas) = s.deltas.map headContent ∧
    String.join (chunkContents (wfStreamLines fm s.deltas)) =
      String.join (s.deltas.map headContent) ∧
    (wfStreamLines fm s.deltas).getLast? =
      some (StreamLine.final fm "assistant" "" (finalFinishOf s.deltas)) ∧
    doneTrueCount (wfStreamLines fm s.deltas) = 1 := by
  refine ⟨?_, rfl, chunkContents_wf fm s.deltas,
    by rw [chunkContents_wf], ?_, doneTrueCount_wf fm s.deltas⟩
  · rcases hs with hs | hs <;>
      simp [handleChat, hs, handleChatStreaming, hf, hc,
        streamBody_eof fm s hwf hterm]
  · simp [wfStreamLines]

theorem chat_stream_frames_witness :
    (handleChat bStreamOk (some reqStreamAbsent)).1 =
      .okStream
        [StreamLine.chunk "vendor/m" "assistant" "He",
         StreamLine.chunk "vendor/m" "assistant" "llo",
         StreamLine.final "vendor/m" "assistant" "" "stop"] .normal true ∧
    String.join ["He", "llo"] = "Hello" := by
  constructor
  · exact (chat_stream_frames bStreamOk reqStreamAbsent "vendor/m"
      ⟨[⟨[⟨"He", ""⟩]⟩, ⟨[⟨"llo", "stop"⟩]⟩], .eof⟩ (Or.inl rfl) rfl rfl rfl
      (by decide)).1
  · rfl

/-- C4: a chat request whose alias resolution fails is answered 404 in
both the streaming and the non-streaming variant, while a failing Chat or
ChatStream backend call is answered 500. -/
theorem chat_unknown_model_404_backend_500 (b : ChatBackend)
    (req : ChatRequest) :
    (∀ e, b.fullName req.model = .error e →
        (handleChat b (some req)).1 = .notFound e) ∧
    (∀ fm e, b.fullName req.model = .ok fm → req.stream = some false →
        b.chat req.messages fm = .error e →
        (handleChat b (some req)).1 = .serverError e) ∧
    (∀ fm e, b.fullName req.model = .ok fm → req.stream.getD true = true →
        b.chatStream req.messages fm = .error e →
        (handleChat b (some req)).1 = .serverError e) := by
  refine ⟨fun e he => ?_, fun fm e hf hs hc => ?_, fun fm e hf hs hc => ?_⟩
  · cases hb : req.stream.getD true <;>
      simp [handleChat, hb, handleChatNonStream, handleChatStreaming, he]
  · simp [handleChat, hs, handleChatNonStream, hf, hc]
  · simp [handleChat, hs, handleChatStreaming, hf, hc]

theorem chat_unknown_model_404_backend_500_witness :
    ((handleChat bNoModel (some reqNoStream)).1 = .notFound "model not found") ∧
    ((handleChat bNoModel (some reqStreamAbsent)).1 =
      .notFound "model not found") ∧
    ((handleChat bCallErr (some reqNoStream)).1 = .serverError "boom") ∧
    ((handleChat bCallErr (some reqStreamAbsent)).1 = .serverError "boom") :=
  ⟨(chat_unknown_model_404_backend_500 bNoModel reqNoStream).1
      "model not found" rfl,
   (chat_unknown_model_404_backend_500 bNoModel reqStreamAbsent).1
      "model not found" rfl,
   (chat_unknown_model_404_backend_500 bCallErr reqNoStream).2.1
      "vendor/m" "boom" rfl rfl rfl,
   (chat_unknown_model_404_backend_500 bCallErr reqStreamAbsent).2.2
      "vendor/m" "boom" rfl rfl rfl⟩

/-- C6: with stream:false, a failing backend call or an empty choices
list is answered 500; otherwise the route returns the single done:true
object built from the first choice, with finish reason defaulted to stop
and durations equal to token counts times the fixed constant 10. -/
theorem chat_nonstream_response (b : ChatBackend) (req : ChatRequest)
    (fm : String) (hs : req.stream = some false)
    (hf : b.fullName req.model = .ok fm) :
    (∀ e, b.chat req.messages fm = .error e →
        (handleChat b (some req)).1 = .serverError e) ∧
    (∀ resp, b.chat req.messages fm = .ok resp → resp.choices = [] →
        (handleChat b (some req)).1 = .serverError "No response from model") ∧
    (∀ resp c0 rest, b.chat req.messages fm = .ok resp →
        resp.choices = c0 :: rest →
        (handleChat b (some req)).1 = .okJson
          { model := fm
            role := "assistant"
            content := c0.content
            done := true
            finish_reason :=
              if c0.finishReason = "" then "stop" else c0.finishReason
            total_duration := resp.usage.totalTokens * 10
            load_duration := 0
            prompt_eval_count := resp.usage.promptTokens
            eval_count := resp.usage.completionTokens
            eval_duration := resp.usage.completionTokens * 10 }) := by
  refine ⟨fun e hc => ?_, fun resp hc hch => ?_,
    fun resp c0 rest hc hch => ?_⟩
  · simp [handleChat, hs, handleChatNonStream, hf, hc]
  · simp [handleChat, hs, handleChatNonStream, hf, hc, hch]
  · simp only [handleChat, hs, Option.getD_some, if_pos rfl,
      handleChatNonStream, hf, hc, hch, List.head?_cons]
    refine congrArg ChatOutcome.okJson ?_
    have hcontent : (if c0.content ≠ "" then c0.content else "") =
        c0.content := by
      rcases eq_or_ne c0.content "" with h | h <;> simp [h]
    have hfr : (if c0.finishReason ≠ "" then c0.finishReason else "stop") =
        if c0.finishReason = "" then "stop" else c0.finishReason := by
      rcases eq_or_ne c0.finishReason "" with h | h <;> simp [h]
    simp [hcontent, hfr]

theorem chat_nonstream_response_witness :
    ((handleChat bChatOk (some reqNoStream)).1 = .okJson
      { model := "vendor/m"
        role := "assistant"
        content := "hello"
        done := true
        finish_reason := "stop"
        total_duration := 70
        load_duration := 0
        prompt_eval_count := 3
        eval_count := 4
        eval_duration := 40 }) ∧
    ((handleChat bCallErr (some reqNoStream)).1 = .serverError "boom") ∧
    ((handleChat bChatEmpty (some reqNoStream)).1 =
      .serverError "No response from model") :=
  ⟨(chat_nonstream_response bChatOk reqNoStream "vendor/m" rfl rfl).2.2
      ⟨[⟨"hello", "stop"⟩], ⟨3, 4, 7⟩⟩ ⟨"hello", "stop"⟩ [] rfl rfl,
   (chat_nonstream_response bCallErr reqNoStream "vendor/m" rfl rfl).1
      "boom" rfl,
   (chat_nonstream_response bChatEmpty reqNoStream "vendor/m" rfl rfl).2.1
      ⟨[], ⟨0, 0, 0⟩⟩ rfl rfl⟩

theorem streamBody_lines_model_role (fm : String) (s : BackendStream) :
    ∀ l ∈ (streamBody fm s).1, ∀ m, l.modelField = some m →
      m = fm ∧ l.roleField = some "assistant" := by
  have hloop := streamLoop_lines fm s.deltas ""
  have hchunk : ∀ l, (∃ c, l = StreamLine.chunk fm "assistant" c) →
      ∀ m, l.modelField = some m →
        m = fm ∧ l.roleField = some "assistant" := by
    rintro l ⟨c, rfl⟩ m hm
    simp [StreamLine.modelField] at hm
    exact ⟨hm.symm, rfl⟩
  intro l hl m hm
  by_cases hp : (streamLoop fm s.deltas "").2.2 = true
  · have hsb : streamBody fm s = ((streamLoop fm s.deltas "").1, .panicked) := by
      unfold streamBody
      rw [if_pos hp]
    rw [hsb] at hl
    exact hchunk l (hloop l hl) m hm
  · rcases hterm : s.terminal with _ | emsg
    · have hsb : streamBody fm s =
          ((streamLoop fm s.deltas "").1 ++
            [StreamLine.final fm "assistant" ""
              (if (streamLoop fm s.deltas "").2.1 = "" then "stop"
               else (streamLoop fm s.deltas "").2.1)], .normal) := by
        unfold streamBody
        rw [if_neg hp, hterm]
      rw [hsb] at hl
      rcases List.mem_append.mp hl with h | h
      · exact hchunk l (hloop l h) m hm
      · have hfin := List.mem_singleton.mp h
        subst hfin
        simp [StreamLine.modelField] at hm
        exact ⟨hm.symm, rfl⟩
    · have hsb : streamBody fm s =
          ((streamLoop fm s.deltas "").1 ++
            [StreamLine.errLine ("Stream error: " ++ emsg)], .errored) := by
        unfold streamBody
        rw [if_neg hp, hterm]
      rw [hsb] at hl
      rcases List.mem_append.mp hl with h | h
      · exact hchunk l (hloop l h) m hm
      · have herr := List.mem_singleton.mp h
        subst herr
        simp [StreamLine.modelField] at hm

/-- C10: in every chat frame the proxy emits — the non-streaming terminal
object, streaming done:false frames, and the streaming done:true frame —
the model field is the resolved fully-qualified identifier and the
message role is assistant. -/
theorem chat_frames_model_role (b : ChatBackend) (req : ChatRequest)
    (fm : String) (hf : b.fullName req.model = .ok fm) :
    (∀ r, (handleChat b (some req)).1 = .okJson r →
        r.model = fm ∧ r.role = "assistant") ∧
    (∀ ls ex cl, (handleChat b (some req)).1 = .okStream ls ex cl →
        ∀ l ∈ ls, ∀ m, l.modelField = some m →
          m = fm ∧ l.roleField = some "assistant") := by
  cases hb : req.stream.getD true with
  | false =>
      constructor
      · intro r hr
        rcases hcall : b.chat req.messages fm with e | resp
        · simp [handleChat, hb, handleChatNonStream, hf, hcall] at hr
        · rcases hch : resp.choices with _ | ⟨c0, rest⟩
          · simp [handleChat, hb, handleChatNonStream, hf, hcall, hch] at hr
          · simp [handleChat, hb, handleChatNonStream, hf, hcall, hch] at hr
            subst hr
            exact ⟨rfl, rfl⟩
      · intro ls ex cl hr
        rcases hcall : b.chat req.messages fm with e | resp
        · simp [handleChat, hb, handleChatNonStream, hf, hcall] at hr
        · rcases hch : resp.choices with _ | ⟨c0, rest⟩
          · simp [handleChat, hb, handleChatNonStream, hf, hcall, hch] at hr
          · simp [handleChat, hb, handleChatNonStream, hf, hcall, hch] at hr
  | true =>
      constructor
      · intro r hr
        rcases hcall : b.chatStream req.messages fm with e | s
        · simp [handleChat, hb, handleChatStreaming, hf, hcall] at hr
        · simp [handleChat, hb, handleChatStreaming, hf, hcall] at hr
      · intro ls ex cl hr
        rcases hcall : b.chatStream req.messages fm with e | s
        · simp [handleChat, hb, handleChatStreaming, hf, hcall] at hr
        · simp [handleChat, hb, handleChatStreaming, hf, hcall] at hr
          obtain ⟨h1, h2, h3⟩ := hr
          subst h1
          intro l hl
          exact streamBody_lines_model_role fm s l hl

theorem chat_frames_model_role_witness :
    "vendor/m" = "vendor/m" ∧
    (StreamLine.chunk "vendor/m" "assistant" "He").roleField =
      some "assistant" :=
  (chat_frames_model_role bStreamOk reqStreamAbsent "vendor/m" rfl).2
    [StreamLine.chunk "vendor/m" "assistant" "He",
     StreamLine.chunk "vendor/m" "assistant" "llo",
     StreamLine.final "vendor/m" "assistant" "" "stop"] .normal true rfl
    (StreamLine.chunk "vendor/m" "assistant" "He") (by simp) "vendor/m" rfl

theorem streamBody_shape (fm : String) (s : BackendStream) :
    ∃ pre, (∀ l ∈ pre, l.doneFlag = some false) ∧
      (((streamBody fm s).2 = .normal ∧
          ∃ fr, (streamBody fm s).1 =
            pre ++ [StreamLine.final fm "assistant" "" fr]) ∨
       ((streamBody fm s).2 ≠ .normal ∧
          ((streamBody fm s).1 = pre ∨
           ∃ m, (streamBody fm s).1 = pre ++ [StreamLine.errLine m]))) := by
  refine ⟨(streamLoop fm s.deltas "").1, ?_, ?_⟩
  · intro l hl
    obtain ⟨c, rfl⟩ := streamLoop_lines fm s.deltas "" l hl
    rfl
  · by_cases hp : (streamLoop fm s.deltas "").2.2 = true
    · have hsb : streamBody fm s = ((streamLoop fm s.deltas "").1, .panicked) := by
        unfold streamBody
        rw [if_pos hp]
      rw [hsb]
      exact Or.inr ⟨by simp, Or.inl rfl⟩
    · rcases hterm : s.terminal with _ | emsg
      · have hsb : streamBody fm s =
            ((streamLoop fm s.deltas "").1 ++
              [StreamLine.final fm "assistant" ""
                (if (streamLoop fm s.deltas "").2.1 = "" then "stop"
                 else (streamLoop fm s.deltas "").2.1)], .normal) := by
          unfold streamBody
          rw [if_neg hp, hterm]
        rw [hsb]
        exact Or.inl ⟨rfl, _, rfl⟩
      · have hsb : streamBody fm s =
            ((streamLoop fm s.deltas "").1 ++
              [StreamLine.errLine ("Stream error: " ++ emsg)], .errored) := by
          unfold streamBody
          rw [if_neg hp, hterm]
        rw [hsb]
        exact Or.inr ⟨by simp, Or.inr ⟨_, rfl⟩⟩

theorem streamBody_doneTrue (fm : String) (s : BackendStream) :
    doneTrueCount (streamBody fm s).1 =
      (if (streamBody fm s).2 = .normal then 1 else 0) ∧
    ((streamBody fm s).2 = .normal →
      ∃ pre fr, (streamBody fm s).1 =
          pre ++ [StreamLine.final fm "assistant" "" fr] ∧
        ∀ l ∈ pre, l.doneFlag = some false) := by
  obtain ⟨pre, hpre, hcase⟩ := streamBody_shape fm s
  have hpre0 : doneTrueCount pre = 0 :=
    doneTrueCount_eq_zero pre (fun l hl => by rw [hpre l hl]; simp)
  rcases hcase with ⟨hn, fr, heq⟩ | ⟨hn, hcase⟩
  · refine ⟨?_, fun _ => ⟨pre, fr, heq, hpre⟩⟩
    rw [hn, if_pos rfl, heq, doneTrueCount_append, hpre0]
    simp [doneTrueCount, StreamLine.doneFlag]
  · refine ⟨?_, fun h => absurd h hn⟩
    rw [if_neg hn]
    rcases hcase with heq | ⟨m, heq⟩
    · rw [heq, hpre0]
    · rw [heq, doneTrueCount_append, hpre0]
      simp [doneTrueCount, StreamLine.doneFlag]

/-- C1 counterexample: a streaming interaction whose backend stream fails
immediately after one delta is an execution path of the chat handler that
emits no done:true frame at all, so the claim does not extend to
backend-error paths. -/
theorem chat_done_true_missing_counterexample :
    (handleChat bStreamErr (some reqStreamAbsent)).1 =
      .okStream
        [StreamLine.chunk "vendor/m" "assistant" "He",
         StreamLine.errLine "Stream error: boom"] .errored true ∧
    doneTrueCount
      [StreamLine.chunk "vendor/m" "assistant" "He",
       StreamLine.errLine "Stream error: boom"] = 0 := ⟨rfl, rfl⟩

/-- C1 (amended): every chat interaction emits at most one done:true
frame; the non-streaming 200 object always carries done:true; a streaming
body carries exactly one done:true frame — the last line, preceded only by
done:false frames — when the stream section exits normally, and none on
the backend-error and panic exits. -/
theorem chat_done_frame_discipline (b : ChatBackend)
    (body : Option ChatRequest) :
    outcomeDoneTrue (handleChat b body).1 ≤ 1 ∧
    (∀ r, (handleChat b body).1 = .okJson r → r.done = true) ∧
    (∀ ls ex cl, (handleChat b body).1 = .okStream ls ex cl →
        cl = true ∧
        (ex = .normal → doneTrueCount ls = 1 ∧
          ∃ pre fr m, ls = pre ++ [StreamLine.final m "assistant" "" fr] ∧
            ∀ l ∈ pre, l.doneFlag = some false) ∧
        (ex ≠ .normal → doneTrueCount ls = 0)) := by
  rcases body with _ | req
  · exact ⟨by simp [handleChat, outcomeDoneTrue], by simp [handleChat],
      by simp [handleChat]⟩
  cases hb : req.stream.getD true with
  | false =>
      rcases hfn : b.fullName req.model with e | fm
      · refine ⟨?_, ?_, ?_⟩ <;>
          simp [handleChat, hb, handleChatNonStream, hfn, outcomeDoneTrue]
      · rcases hcall : b.chat req.messages fm with e | resp
        · refine ⟨?_, ?_, ?_⟩ <;>
            simp [handleChat, hb, handleChatNonStream, hfn, hcall,
              outcomeDoneTrue]
        · rcases hch : resp.choices with _ | ⟨c0, rest⟩
          · refine ⟨?_, ?_, ?_⟩ <;>
              simp [handleChat, hb, handleChatNonStream, hfn, hcall, hch,
                outcomeDoneTrue]
          · refine ⟨?_, ?_, ?_⟩
            · simp [handleChat, hb, handleChatNonStream, hfn, hcall, hch,
                outcomeDoneTrue]
            · intro r hr
              simp [handleChat, hb, handleChatNonStream, hfn, hcall, hch]
                at hr
              subst hr
              rfl
            · intro ls ex cl hr
              simp [handleChat, hb, handleChatNonStream, hfn, hcall, hch]
                at hr
  | true =>
      rcases hfn : b.fullName req.model with e | fm
      · refine ⟨?_, ?_, ?_⟩ <;>
          simp [handleChat, hb, handleChatStreaming, hfn, outcomeDoneTrue]
      · rcases hcall : b.chatStream req.messages fm with e | s
        · refine ⟨?_, ?_, ?_⟩ <;>
            simp [handleChat, hb, handleChatStreaming, hfn, hcall,
              outcomeDoneTrue]
        · refine ⟨?_, ?_, ?_⟩
          · have hsb := (streamBody_doneTrue fm s).1
            by_cases hn : (streamBody fm s).2 = .normal
            · simp [handleChat, hb, handleChatStreaming, hfn, hcall,
                outcomeDoneTrue, hsb, hn]
            · simp [handleChat, hb, handleChatStreaming, hfn, hcall,
                outcomeDoneTrue, hsb, hn]
          · intro r hr
            simp [handleChat, hb, handleChatStreaming, hfn, hcall] at hr
          · intro ls ex cl hr
            simp [handleChat, hb, handleChatStreaming, hfn, hcall] at hr
            obtain ⟨h1, h2, h3⟩ := hr
            subst h1
            subst h2
            refine ⟨h3, ?_, ?_⟩
            · intro hex
              refine ⟨?_, ?_⟩
              · rw [(streamBody_doneTrue fm s).1, if_pos hex]
              · obtain ⟨pre, fr, heq, hpre⟩ :=
                  (streamBody_doneTrue fm s).2 hex
                exact ⟨pre, fr, fm, heq, hpre⟩
            · intro hex
              rw [(streamBody_doneTrue fm s).1, if_neg hex]

theorem chat_done_frame_discipline_witness :
    doneTrueCount
      [StreamLine.chunk "vendor/m" "assistant" "He",
       StreamLine.chunk "vendor/m" "assistant" "llo",
       StreamLine.final "vendor/m" "assistant" "" "stop"] = 1 ∧
    ∃ pre fr m,
      [StreamLine.chunk "vendor/m" "assistant" "He",
       StreamLine.chunk "vendor/m" "assistant" "llo",
       StreamLine.final "vendor/m" "assistant" "" "stop"] =
        pre ++ [StreamLine.final m "assistant" "" fr] ∧
      ∀ l ∈ pre, l.doneFlag = some false :=
  ((chat_done_frame_discipline bStreamOk (some reqStreamAbsent)).2.2
      [StreamLine.chunk "vendor/m" "assistant" "He",
       StreamLine.chunk "vendor/m" "assistant" "llo",
       StreamLine.final "vendor/m" "assistant" "" "stop"]
      .normal true rfl).2.1 rfl

/-- C9: building the done:false frame is not total.  The finish-reason
read two lines above is guarded by a length check, but the content access
indexes the first choice unguarded, so a delta whose choices list is
empty makes the streaming loop abort with an index out of range instead
of producing a frame. -/
theorem stream_empty_choices_delta_panics :
    recvStep "vendor/m" "" ⟨[]⟩ = none ∧
    (streamLoop "vendor/m" [⟨[]⟩] "").2.2 = true ∧
    (handleChat bStreamEmptyDelta (some reqStreamAbsent)).1 =
      .okStream [] .panicked true := ⟨rfl, rfl, rfl⟩
